import Mathlib

/-!
# Verification of `claude-auto-switch/switch.py`

A shallow embedding of the account-failover supervisor in
`docs/claude-code/config/scripts/claude-auto-switch/switch.py`.

Pure helpers (`detect_rate_limit`, `extract_session_id`, the session/context
file store, `capture_conversation_buffer`) are translated directly.  The
operating-system interactions of `run_claude_interactive` and `main` are
embedded as executable functions over an explicit *event script*: each
iteration of the PTY bridging loop consumes one `Iter` record saying which
descriptors the `select` call reported ready, what bytes arrived, whether the
child process has exited by now, and whether a `KeyboardInterrupt` was
delivered.  Every externally visible action (terminal-mode changes, closing
the PTY descriptor, signals, file writes) is recorded in an effect trace so
that cleanup and ordering properties can be stated.

Modelling conventions:
* `re.search` is modelled for literal patterns (the form the configured
  detection patterns take): a search succeeds iff the pattern occurs as a
  substring.  The line, and only the line, is lower-cased first, exactly as
  in the source.
* Python's `str.strip`/`str.lower` are modelled by `String.trim` /
  `String.toLower` (ASCII behaviour, which covers the values the program
  handles).
* A file that may or may not exist is an `Option String`; deleting on read
  sets it to `none`.
* `os.waitpid(pid, WNOHANG)` is modelled on a child-process state
  (`running` / `exited` / `reaped`); calling it on an already reaped child
  raises `ChildProcessError`, which the source does not catch at the
  post-loop wait.
-/

namespace AutoSwitch

/-- One entry of `config["accounts"]`: the account name plus the only fact
about its `config_dir` that the program consults, namely whether the
directory exists. -/
structure Account where
  name : String
  configDirExists : Bool
  deriving DecidableEq, Repr

/-- The configuration loaded by `load_config`: ordered account list and the
rate-limit detection patterns. -/
structure Config where
  accounts : List Account
  patterns : List String
  deriving DecidableEq, Repr

/-- The two one-time-use files in `~/.claude`: `.auto-switch-session` and
`.auto-switch-context.md`.  `none` means the file does not exist. -/
structure FileState where
  session : Option String
  context : Option String
  deriving DecidableEq, Repr

/-- Whether the first list is an initial segment of the second. -/
def isInitSeg : List Char → List Char → Bool
  | [], _ => true
  | _ :: _, [] => false
  | c :: cs, d :: ds => c == d && isInitSeg cs ds

/-- Whether `pat` occurs as a contiguous sublist of the second argument. -/
def hasSubList (pat : List Char) : List Char → Bool
  | [] => pat.isEmpty
  | c :: rest => isInitSeg pat (c :: rest) || hasSubList pat rest

/-- Substring occurrence: the model of `re.search` for literal patterns.
`re.search("", s)` always succeeds; otherwise success means `pat` occurs
somewhere in `s`. -/
def strContainsSub (s pat : String) : Bool :=
  hasSubList pat.data s.data

/-- Character-wise lower-casing, the model of `str.lower` (ASCII range). -/
def strLower (s : String) : String :=
  String.mk (s.data.map Char.toLower)

/-- `detect_rate_limit` (switch.py:55-58): lower-cases the line and tests
every configured pattern, OR-ing the results.  The patterns themselves are
used verbatim. -/
def detect_rate_limit (line : String) (patterns : List String) : Bool :=
  let lineLower := strLower line
  patterns.any (fun p => strContainsSub lineLower p)

/-- A hexadecimal digit as accepted by the `[a-f0-9]` character class under
`re.IGNORECASE`. -/
def isHexChar (c : Char) : Bool :=
  c.isDigit || (decide ('a' ≤ c) && decide (c ≤ 'f')) || (decide ('A' ≤ c) && decide (c ≤ 'F'))

/-- Whether the first 36 characters of `cs` have the canonical
8-4-4-4-12 UUID shape of `SESSION_ID_PATTERN` (switch.py:36). -/
def uuidShape (cs : List Char) : Bool :=
  decide (cs.length = 36) &&
    (List.range 36).all (fun i =>
      if i = 8 ∨ i = 13 ∨ i = 18 ∨ i = 23 then cs.getD i ' ' == '-'
      else isHexChar (cs.getD i ' '))

/-- Leftmost UUID-shaped substring of a character list, if any; the scan of
`SESSION_ID_PATTERN.search`. -/
def findUuid : List Char → Option String
  | [] => none
  | c :: rest =>
    if uuidShape ((c :: rest).take 36) then some (String.mk ((c :: rest).take 36))
    else findUuid rest

/-- `extract_session_id` (switch.py:101-104): first UUID-shaped match in the
line, with its original casing. -/
def extract_session_id (line : String) : Option String :=
  findUuid line.data

/-- `save_session_id` (switch.py:85-89): full-file overwrite of the session
marker file. -/
def save_session_id (sessionId : String) (f : FileState) : FileState :=
  { f with session := some sessionId }

/-- A whitespace character in the sense of Python's `str.strip`
(ASCII range). -/
def isStripWhite (c : Char) : Bool :=
  c == ' ' || c == '\t' || c == '\n' || c == '\r' || c == '\x0b' || c == '\x0c'

/-- Python's `str.strip()`: remove leading and trailing whitespace. -/
def strStrip (s : String) : String :=
  String.mk (((s.data.dropWhile isStripWhite).reverse.dropWhile isStripWhite).reverse)

/-- `load_session_id` (switch.py:92-98): if the marker file exists, read it,
delete it, strip the content and return it (absent if the stripped content is
empty). -/
def load_session_id (f : FileState) : Option String × FileState :=
  match f.session with
  | none => (none, f)
  | some content =>
    let sessionId := strStrip content
    (if sessionId = "" then none else some sessionId, { f with session := none })

/-- The markdown document produced by `save_context` (switch.py:61-73),
with the timestamp passed in as a parameter. -/
def contextDoc (now summary : String) : String :=
  "# Auto-Switch Context\nSaved: " ++ now ++
    "\n\n## Previous Conversation Summary\n" ++ summary ++
    "\n\n---\n*This context was auto-saved when switching accounts due to rate limit.*\n"

/-- `save_context` (switch.py:61-73): full-file overwrite of the context
snapshot file. -/
def save_context (now summary : String) (f : FileState) : FileState :=
  { f with context := some (contextDoc now summary) }

/-- `load_context` (switch.py:76-82): read then delete the context snapshot
file, if present. -/
def load_context (f : FileState) : Option String × FileState :=
  match f.context with
  | none => (none, f)
  | some content => (some content, { f with context := none })

/-- The filter of `capture_conversation_buffer` (switch.py:107-120): keep a
line unless its stripped form is empty, starts with a box-drawing border, or
is a short `│` fragment. -/
def keepLine (line : String) : Bool :=
  let s := strStrip line
  !(s.data.isEmpty || isInitSeg "─".data s.data || isInitSeg "╭".data s.data ||
    isInitSeg "╰".data s.data || (isInitSeg "│".data s.data && decide (s.length < 5)))

/-- `capture_conversation_buffer` (switch.py:107-122): last `maxLines` lines,
filtered, then the last 50 of those, joined by newlines. -/
def capture_conversation_buffer (outputLines : List String) (maxLines : Nat) : String :=
  let tail := outputLines.drop (outputLines.length - maxLines)
  let relevant := tail.filter keepLine
  String.intercalate "\n" (relevant.drop (relevant.length - 50))

/-- How the child process terminated, as reported by `waitpid`:
`exitCode c` satisfies `WIFEXITED` with `WEXITSTATUS = c`; `signaled` is a
signal death (`WIFEXITED` false, exit code mapped to 1 by the source). -/
inductive ChildStatus where
  | exitCode (c : Nat)
  | signaled
  deriving DecidableEq, Repr

/-- The supervisor-visible state of the forked child: still running, exited
but not yet reaped (a zombie `waitpid` can still report), or already reaped
(a further `waitpid` raises `ChildProcessError`). -/
inductive Child where
  | running
  | exited (t : ChildStatus)
  | reaped
  deriving DecidableEq, Repr

/-- What a ready PTY master descriptor yields on `os.read`: decoded text
(already split into the fragments `str.splitlines` produces), or an
EOF / `OSError`, both of which make the source break out of the loop. -/
inductive PtyEv where
  | data (lines : List String)
  | closed
  deriving DecidableEq, Repr

/-- One iteration of the bridging loop, as dictated by the environment:
whether a `KeyboardInterrupt` is delivered at this point, whether stdin was
ready with nonempty data, what the PTY descriptor yielded (if ready), and
whether the child process has exited by this iteration. -/
structure Iter where
  intr : Bool
  stdin : Bool
  pty : Option PtyEv
  childExits : Option ChildStatus
  deriving DecidableEq, Repr

/-- Environment script for one `run_claude_interactive` invocation: the
bridging-loop iterations, plus at which post-loop poll (if any) a child that
is still running exits, and how. -/
structure RunScript where
  iters : List Iter
  graceExit : Option (Nat × ChildStatus)
  deriving DecidableEq, Repr

/-- The default script (used for `List.getD`): an immediately truncated
environment. -/
def defaultScript : RunScript := ⟨[], none⟩

/-- Externally visible actions of `run_claude_interactive`, in order. -/
inductive REff where
  | getattr
  | fork (cmd : List String)
  | setraw
  | restoreTerm
  | closeFd
  | writePty
  | writeStdout
  | sigterm
  | sigkill
  | reap
  deriving DecidableEq, Repr

/-- In-memory state of the bridging loop: the transcript, the rate-limit
flag, and the captured session id. -/
structure LoopState where
  outputLines : List String
  rateLimit : Bool
  captured : Option String
  deriving DecidableEq, Repr

/-- How the bridging loop ended: a `break` (EOF/`OSError`, rate limit or
child-exit poll), a `KeyboardInterrupt`, an in-loop `ChildProcessError`
(unreachable from a running child), or the script running out while the loop
is still live. -/
inductive LoopExit where
  | brk
  | intr
  | cpe
  | ranOut
  deriving DecidableEq, Repr

/-- Result of running the bridging loop to completion of its script. -/
structure LoopOut where
  st : LoopState
  child : Child
  effs : List REff
  ex : LoopExit
  deriving DecidableEq, Repr

/-- The per-line processing of switch.py:207-225: append the line to the
transcript, capture a session id while the transcript is still shorter than
50 lines and none is captured yet, then test for a rate-limit match, which
restores the terminal, signals the child and breaks. -/
def procLines (patterns : List String) : LoopState → List String → LoopState × List REff
  | st, [] => (st, [])
  | st, line :: rest =>
    let lines' := st.outputLines ++ [line]
    let cap := if st.captured = none ∧ lines'.length < 50 then extract_session_id line
      else st.captured
    if detect_rate_limit line patterns then
      ({ outputLines := lines', rateLimit := true, captured := cap },
        [REff.restoreTerm, REff.sigterm])
    else
      procLines patterns { outputLines := lines', rateLimit := st.rateLimit, captured := cap } rest

/-- The bridging loop of switch.py:183-236, one `Iter` per iteration of
`while True`.  Order within an iteration follows the source: stdin is
forwarded first, then PTY output is copied and classified, then the child is
polled with `waitpid(WNOHANG)` (which reaps an exited child and breaks). -/
def bridgeLoop (patterns : List String) : List Iter → LoopState → Child → LoopOut
  | [], st, child => ⟨st, child, [], LoopExit.ranOut⟩
  | it :: rest, st, child =>
    let child1 := match it.childExits, child with
      | some t, Child.running => Child.exited t
      | _, c => c
    if it.intr then ⟨st, child1, [REff.sigterm], LoopExit.intr⟩
    else
      let effs0 : List REff := if it.stdin then [REff.writePty] else []
      match it.pty with
      | some PtyEv.closed => ⟨st, child1, effs0, LoopExit.brk⟩
      | some (PtyEv.data lines) =>
        let pr := procLines patterns st lines
        if pr.1.rateLimit then
          ⟨pr.1, child1, effs0 ++ REff.writeStdout :: pr.2, LoopExit.brk⟩
        else
          match child1 with
          | Child.exited _ =>
            ⟨pr.1, Child.reaped, effs0 ++ REff.writeStdout :: pr.2, LoopExit.brk⟩
          | Child.reaped =>
            ⟨pr.1, Child.reaped, effs0 ++ REff.writeStdout :: pr.2, LoopExit.cpe⟩
          | Child.running =>
            let out := bridgeLoop patterns rest pr.1 Child.running
            ⟨out.st, out.child, (effs0 ++ REff.writeStdout :: pr.2) ++ out.effs, out.ex⟩
      | none =>
        match child1 with
        | Child.exited _ => ⟨st, Child.reaped, effs0, LoopExit.brk⟩
        | Child.reaped => ⟨st, Child.reaped, effs0, LoopExit.cpe⟩
        | Child.running =>
          let out := bridgeLoop patterns rest st Child.running
          ⟨out.st, out.child, effs0 ++ out.effs, out.ex⟩

/-- `WEXITSTATUS` if `WIFEXITED`, else the fixed failure code 1
(switch.py:256). -/
def wexitCode : ChildStatus → Nat
  | ChildStatus.exitCode c => c
  | ChildStatus.signaled => 1

/-- The child state a post-loop poll at index `i` observes, given that a
still-running child exits at poll `k` of the grace window. -/
def childAt (child : Child) (grace : Option (Nat × ChildStatus)) (i : Nat) : Child :=
  match child with
  | Child.running =>
    match grace with
    | some (k, t) => if k ≤ i then Child.exited t else Child.running
    | none => Child.running
  | c => c

/-- The graceful-wait loop of switch.py:252-269 from poll index `i` with `n`
polls remaining: each poll is `waitpid(WNOHANG)`.  Result: (exit code,
effects, whether `ChildProcessError` was raised).  A child that never shows
up within the window is SIGKILLed and reaped unconditionally with exit
code 1. -/
def postWaitGo (child : Child) (grace : Option (Nat × ChildStatus)) :
    Nat → Nat → Nat × List REff × Bool
  | _, 0 => (1, [REff.sigkill, REff.reap], false)
  | i, n + 1 =>
    match childAt child grace i with
    | Child.reaped => (0, [], true)
    | Child.exited t => (wexitCode t, [REff.reap], false)
    | Child.running => postWaitGo child grace (i + 1) n

/-- The full 30-poll grace window (3 seconds at 0.1s per poll). -/
def postWait (child : Child) (grace : Option (Nat × ChildStatus)) :
    Nat × List REff × Bool :=
  postWaitGo child grace 0 30

/-- How one `run_claude_interactive` invocation ends: a normal return of
`(exit_code, output_lines, captured_session_id)`, a propagating
`KeyboardInterrupt`, a propagating `ChildProcessError` from the post-loop
wait, or a truncated script (the loop was still live). -/
inductive RunRes where
  | ret (code : Int) (lines : List String) (captured : Option String)
  | intr
  | cpe
  | nonterm
  deriving DecidableEq, Repr

/-- `run_claude_interactive` (switch.py:125-274).  If the account's config
directory is missing it returns `(1, [], None)` with no effects at all.
Otherwise: save the terminal mode, fork the child on a fresh PTY with
`--resume` appended when resuming, set the terminal raw, run the bridging
loop, and in every case restore the terminal mode and close the descriptor
(the `finally` block) before the graceful wait; a rate-limit detection is
reported as exit code `-1`. -/
def runClaude (account : Account) (args : List String) (patterns : List String)
    (resumeId : Option String) (script : RunScript) : RunRes × List REff :=
  if account.configDirExists then
    let cmd := "claude" :: args ++
      (match resumeId with
       | some sid => ["--resume", sid]
       | none => [])
    let pre : List REff := [REff.getattr, REff.fork cmd, REff.setraw]
    let out := bridgeLoop patterns script.iters ⟨[], false, none⟩ Child.running
    let fin : List REff := [REff.restoreTerm, REff.closeFd]
    match out.ex with
    | LoopExit.intr => (RunRes.intr, pre ++ out.effs ++ fin)
    | LoopExit.cpe => (RunRes.cpe, pre ++ out.effs ++ fin)
    | LoopExit.ranOut => (RunRes.nonterm, pre ++ out.effs)
    | LoopExit.brk =>
      let pw := postWait out.child script.graceExit
      if pw.2.2 then (RunRes.cpe, pre ++ out.effs ++ fin ++ pw.2.1)
      else if out.st.rateLimit then
        (RunRes.ret (-1) out.st.outputLines out.st.captured, pre ++ out.effs ++ fin ++ pw.2.1)
      else
        (RunRes.ret (pw.1 : Int) out.st.outputLines out.st.captured,
          pre ++ out.effs ++ fin ++ pw.2.1)
  else (RunRes.ret 1 [] none, [])

/-- Controller-level events: loading/saving the one-time files and each
invocation of `run_claude_interactive` with its resume argument. -/
inductive MEff where
  | loadSession
  | saveSession (sessionId : String)
  | loadContext
  | saveContext (doc : String)
  | invoke (idx : Nat) (resume : Option String)
  deriving DecidableEq, Repr

/-- How `main` ends: a `return` value, a propagating `KeyboardInterrupt`
(turned into exit 130 by the `__main__` guard), a propagating
`ChildProcessError` (an uncaught traceback), or a truncated script. -/
inductive MainRes where
  | exit (code : Int)
  | interrupted
  | crash
  | stillRunning
  deriving DecidableEq, Repr

/-- Environment script for `main`: one `RunScript` per attempt, and whether
the user interrupts the inter-account pause after each rate-limited
attempt. -/
structure MainScript where
  runs : List RunScript
  aborts : List Bool
  deriving DecidableEq, Repr

/-- The rotation loop of `main` (switch.py:299-342), with fuel equal to the
number of accounts still to try (the loop index only ever increases by one,
so `accounts.length` fuel is exact).  On a rate-limited attempt the current
session id, if any, is persisted before switching; the inter-account pause
may be aborted by the user (exit 1); exhausting the account list exits 1. -/
def mainLoop (cfg : Config) (args : List String) (ms : MainScript) :
    Nat → Nat → Option String → FileState → MainRes × FileState × List MEff
  | 0, _, _, file => (MainRes.exit 1, file, [])
  | fuel + 1, idx, curSid, file =>
    if h : idx < cfg.accounts.length then
      let account := cfg.accounts.get ⟨idx, h⟩
      let resume := if 0 < idx ∧ curSid.isSome then curSid else none
      let r := runClaude account args cfg.patterns resume (ms.runs.getD idx defaultScript)
      match r.1 with
      | RunRes.intr => (MainRes.interrupted, file, [MEff.invoke idx resume])
      | RunRes.cpe => (MainRes.crash, file, [MEff.invoke idx resume])
      | RunRes.nonterm => (MainRes.stillRunning, file, [MEff.invoke idx resume])
      | RunRes.ret code _lines captured =>
        let curSid' := match captured with
          | some s => some s
          | none => curSid
        if code = -1 then
          let saved := match curSid' with
            | some sid => (save_session_id sid file, [MEff.saveSession sid])
            | none => (file, ([] : List MEff))
          if idx + 1 < cfg.accounts.length then
            if ms.aborts.getD idx false then
              (MainRes.exit 1, saved.1, MEff.invoke idx resume :: saved.2)
            else
              let rec2 := mainLoop cfg args ms fuel (idx + 1) curSid' saved.1
              (rec2.1, rec2.2.1, MEff.invoke idx resume :: (saved.2 ++ rec2.2.2))
          else
            (MainRes.exit 1, saved.1, MEff.invoke idx resume :: saved.2)
        else (MainRes.exit code, file, [MEff.invoke idx resume])
    else (MainRes.exit 1, file, [])

/-- `main` (switch.py:277-342): fail on an empty account list, consume any
previously persisted session id (first-run auto-resume is suppressed: the
resume argument for account 0 is always `None`), then run the rotation
loop. -/
def mainRun (cfg : Config) (args : List String) (ms : MainScript) (f0 : FileState) :
    MainRes × FileState × List MEff :=
  if cfg.accounts.isEmpty then (MainRes.exit 1, f0, [])
  else
    let loaded := load_session_id f0
    let r := mainLoop cfg args ms cfg.accounts.length 0 loaded.1 loaded.2
    (r.1, r.2.1, MEff.loadSession :: r.2.2)

/-- Overall process outcome of `sys.exit(main())` under the `__main__`
guard (switch.py:345-350). -/
inductive SupOutcome where
  | code (c : Int)
  | uncaught
  | stillRunning
  deriving DecidableEq, Repr

/-- The process-level wrapper: `main`'s return value becomes the exit
status, `KeyboardInterrupt` becomes 130, any other exception is an uncaught
traceback. -/
def supervisor (cfg : Config) (args : List String) (ms : MainScript) (f0 : FileState) :
    SupOutcome :=
  match (mainRun cfg args ms f0).1 with
  | MainRes.exit c => SupOutcome.code c
  | MainRes.interrupted => SupOutcome.code 130
  | MainRes.crash => SupOutcome.uncaught
  | MainRes.stillRunning => SupOutcome.stillRunning

/-! ## Helper predicates -/

/-- Recognizer for the terminal-restoration effect. -/
def isRestoreE : REff → Bool
  | REff.restoreTerm => true
  | _ => false

/-- Recognizer for the descriptor-close effect. -/
def isCloseE : REff → Bool
  | REff.closeFd => true
  | _ => false

/-- Number of terminal-mode restorations in an effect trace. -/
def nRestore (l : List REff) : Nat := l.countP isRestoreE

/-- Number of PTY-descriptor closes in an effect trace. -/
def nClose (l : List REff) : Nat := l.countP isCloseE

/-- Whether a run result is the rate-limit sentinel `(-1, …)`. -/
def isRateRes : RunRes → Bool
  | RunRes.ret code _ _ => decide (code = -1)
  | _ => false

/-- Capture invariant: any captured session id was extracted from a
transcript line whose 0-based index is below 50. -/
def InvCap (st : LoopState) : Prop :=
  ∀ s, st.captured = some s →
    ∃ i, ∃ hi : i < st.outputLines.length, i < 50 ∧
      extract_session_id (st.outputLines.get ⟨i, hi⟩) = some s

/-- No transcript line matches a rate-limit pattern. -/
def NoMatch (patterns : List String) (st : LoopState) : Prop :=
  ∀ l ∈ st.outputLines, detect_rate_limit l patterns = false

/-! ## Invariants of the per-line processing -/

lemma invCap_append (st : LoopState) (line : String) (b : Bool) (h : InvCap st) :
    InvCap ⟨st.outputLines ++ [line], b,
      if st.captured = none ∧ (st.outputLines ++ [line]).length < 50 then
        extract_session_id line
      else st.captured⟩ := by
  intro s hs
  simp only at hs
  split at hs
  case isTrue hcond =>
    refine ⟨st.outputLines.length, by simp, ?_, ?_⟩
    · have := hcond.2
      simp only [List.length_append, List.length_singleton] at this
      omega
    · simp only [List.get_eq_getElem]
      rw [List.getElem_concat_length _ _ _ rfl]
      exact hs
  case isFalse hcond =>
    obtain ⟨i, hi, h50, hx⟩ := h s hs
    refine ⟨i, by simp; omega, h50, ?_⟩
    simp only [List.get_eq_getElem] at hx ⊢
    rw [List.getElem_append_left hi]
    exact hx

lemma procLines_facts (patterns : List String) (lines : List String) :
    ∀ (st : LoopState), st.rateLimit = false → InvCap st → NoMatch patterns st →
      InvCap (procLines patterns st lines).1 ∧
      (((procLines patterns st lines).1.rateLimit = false ∧
          (procLines patterns st lines).2 = [] ∧
          NoMatch patterns (procLines patterns st lines).1) ∨
        ((procLines patterns st lines).1.rateLimit = true ∧
          (procLines patterns st lines).2 = [REff.restoreTerm, REff.sigterm])) := by
  induction lines with
  | nil =>
    intro st hrl hc hm
    exact ⟨hc, Or.inl ⟨hrl, rfl, hm⟩⟩
  | cons line rest ih =>
    intro st hrl hc hm
    by_cases hd : detect_rate_limit line patterns
    · simp only [procLines, hd, if_true]
      exact ⟨invCap_append st line true hc, Or.inr ⟨by simp, by simp⟩⟩
    · simp only [procLines, hd, Bool.false_eq_true, if_false]
      apply ih
      · exact hrl
      · exact invCap_append st line st.rateLimit hc
      · intro l hl
        simp only [List.mem_append, List.mem_singleton] at hl
        rcases hl with hl | rfl
        · exact hm l hl
        · exact Bool.not_eq_true _ ▸ hd

/-! ## Invariants of the bridging loop -/

/-- Facts established about any completed bridging loop started with a clean
state and a running child. -/
structure LoopFacts (patterns : List String) (out : LoopOut) : Prop where
  rate_brk : out.st.rateLimit = true → out.ex = LoopExit.brk
  restore_count : nRestore out.effs = (if out.st.rateLimit then 1 else 0)
  close_count : nClose out.effs = 0
  reaped_rate : out.child = Child.reaped → out.st.rateLimit = false
  cap_inv : InvCap out.st
  no_match : out.st.rateLimit = false → NoMatch patterns out.st

lemma nRestore_stdinEffs (b : Bool) :
    nRestore (if b then [REff.writePty] else []) = 0 := by
  cases b <;> simp [nRestore, isRestoreE]

lemma nClose_stdinEffs (b : Bool) :
    nClose (if b then [REff.writePty] else []) = 0 := by
  cases b <;> simp [nClose, isCloseE]

lemma bridgeLoop_facts (patterns : List String) (iters : List Iter) :
    ∀ (st : LoopState) (child : Child), st.rateLimit = false → InvCap st →
      NoMatch patterns st → child ≠ Child.reaped →
      LoopFacts patterns (bridgeLoop patterns iters st child) := by
  induction iters with
  | nil =>
    intro st child hrl hc hm _
    exact { rate_brk := by simp [bridgeLoop, hrl]
            restore_count := by simp [bridgeLoop, nRestore, hrl]
            close_count := by simp [bridgeLoop, nClose]
            reaped_rate := fun _ => hrl
            cap_inv := hc
            no_match := fun _ => hm }
  | cons it rest ih =>
    intro st child hrl hc hm hch
    simp only [bridgeLoop]
    by_cases hintr : it.intr
    · simp only [hintr, if_true]
      exact { rate_brk := by simp [hrl]
              restore_count := by simp [nRestore, isRestoreE, hrl]
              close_count := by simp [nClose, isCloseE]
              reaped_rate := fun _ => hrl
              cap_inv := hc
              no_match := fun _ => hm }
    · simp only [hintr, Bool.false_eq_true, if_false]
      cases hpty : it.pty with
      | none =>
        cases hce : it.childExits <;> cases child <;> try (exact absurd rfl hch)
        · have F := ih st Child.running hrl hc hm (by simp)
          have h0 : List.countP isRestoreE (if it.stdin = true then [REff.writePty] else []) = 0 := by
            cases it.stdin <;> simp [isRestoreE]
          have h1 : List.countP isCloseE (if it.stdin = true then [REff.writePty] else []) = 0 := by
            cases it.stdin <;> simp [isCloseE]
          exact { rate_brk := F.rate_brk
                  restore_count := by
                    have hF := F.restore_count
                    simp only [nRestore] at hF ⊢
                    simp [List.countP_append, h0, hF]
                  close_count := by
                    have hF := F.close_count
                    simp only [nClose] at hF ⊢
                    simp [List.countP_append, h1, hF]
                  reaped_rate := F.reaped_rate
                  cap_inv := F.cap_inv
                  no_match := F.no_match }
        · exact { rate_brk := by simp [hrl]
                  restore_count := by simp [hrl, nRestore_stdinEffs it.stdin]
                  close_count := by simp [nClose_stdinEffs it.stdin]
                  reaped_rate := fun _ => hrl
                  cap_inv := hc
                  no_match := fun _ => hm }
        · exact { rate_brk := by simp [hrl]
                  restore_count := by simp [hrl, nRestore_stdinEffs it.stdin]
                  close_count := by simp [nClose_stdinEffs it.stdin]
                  reaped_rate := fun _ => hrl
                  cap_inv := hc
                  no_match := fun _ => hm }
        · exact { rate_brk := by simp [hrl]
                  restore_count := by simp [hrl, nRestore_stdinEffs it.stdin]
                  close_count := by simp [nClose_stdinEffs it.stdin]
                  reaped_rate := fun _ => hrl
                  cap_inv := hc
                  no_match := fun _ => hm }
      | some pv =>
        cases pv with
        | closed =>
          exact { rate_brk := by simp [hrl]
                  restore_count := by simp [hrl, nRestore_stdinEffs it.stdin]
                  close_count := by simp [nClose_stdinEffs it.stdin]
                  reaped_rate := fun _ => hrl
                  cap_inv := hc
                  no_match := fun _ => hm }
        | data lines =>
          obtain ⟨hcap, hcase⟩ := procLines_facts patterns lines st hrl hc hm
          rcases hcase with ⟨hprl, hpre, hpm⟩ | ⟨hprl, hpre⟩
          · simp only [hprl, Bool.false_eq_true, if_false]
            cases hce : it.childExits <;> cases child <;> try (exact absurd rfl hch)
            · have F := ih (procLines patterns st lines).1 Child.running hprl hcap hpm (by simp)
              have h0 : List.countP isRestoreE (if it.stdin = true then [REff.writePty] else []) = 0 := by
                cases it.stdin <;> simp [isRestoreE]
              have h1 : List.countP isCloseE (if it.stdin = true then [REff.writePty] else []) = 0 := by
                cases it.stdin <;> simp [isCloseE]
              exact { rate_brk := F.rate_brk
                      restore_count := by
                        have hF := F.restore_count
                        simp only [nRestore] at hF ⊢
                        simp [List.countP_append, List.countP_cons, hpre, h0,
                          isRestoreE, hF]
                      close_count := by
                        have hF := F.close_count
                        simp only [nClose] at hF ⊢
                        simp [List.countP_append, List.countP_cons, hpre, h1,
                          isCloseE, hF]
                      reaped_rate := F.reaped_rate
                      cap_inv := F.cap_inv
                      no_match := F.no_match }
            · exact { rate_brk := by simp [hprl]
                      restore_count := by
                        simp [hprl, hpre, nRestore, nRestore_stdinEffs it.stdin,
                          List.countP_append, isRestoreE]
                      close_count := by
                        simp [hpre, nClose, nClose_stdinEffs it.stdin,
                          List.countP_append, isCloseE]
                      reaped_rate := fun _ => hprl
                      cap_inv := hcap
                      no_match := fun _ => hpm }
            · exact { rate_brk := by simp [hprl]
                      restore_count := by
                        simp [hprl, hpre, nRestore, nRestore_stdinEffs it.stdin,
                          List.countP_append, isRestoreE]
                      close_count := by
                        simp [hpre, nClose, nClose_stdinEffs it.stdin,
                          List.countP_append, isCloseE]
                      reaped_rate := fun _ => hprl
                      cap_inv := hcap
                      no_match := fun _ => hpm }
            · exact { rate_brk := by simp [hprl]
                      restore_count := by
                        simp [hprl, hpre, nRestore, nRestore_stdinEffs it.stdin,
                          List.countP_append, isRestoreE]
                      close_count := by
                        simp [hpre, nClose, nClose_stdinEffs it.stdin,
                          List.countP_append, isCloseE]
                      reaped_rate := fun _ => hprl
                      cap_inv := hcap
                      no_match := fun _ => hpm }
          · simp only [hprl, if_true]
            exact { rate_brk := fun _ => rfl
                    restore_count := by
                      simp [hprl, hpre, nRestore, nRestore_stdinEffs it.stdin,
                        List.countP_append, isRestoreE]
                    close_count := by
                      simp [hpre, nClose, nClose_stdinEffs it.stdin,
                        List.countP_append, isCloseE]
                    reaped_rate := by
                      intro h
                      exfalso
                      revert h
                      cases it.childExits <;> cases child <;> simp_all
                    cap_inv := hcap
                    no_match := fun h => absurd h (by simp [hprl]) }

/-! ## Facts about the graceful-wait phase -/

lemma childAt_reaped (c : Child) (grace : Option (Nat × ChildStatus)) (i : Nat)
    (h : childAt c grace i = Child.reaped) : c = Child.reaped := by
  cases c with
  | running =>
    exfalso
    revert h
    simp only [childAt]
    split <;> (try split) <;> simp
  | exited t => exact absurd h (by simp [childAt])
  | reaped => rfl

lemma postWaitGo_facts (child : Child) (grace : Option (Nat × ChildStatus)) :
    ∀ (n i : Nat),
      nRestore (postWaitGo child grace i n).2.1 = 0 ∧
      nClose (postWaitGo child grace i n).2.1 = 0 ∧
      ((postWaitGo child grace i n).2.2 = true → child = Child.reaped) := by
  intro n
  induction n with
  | zero =>
    intro i
    refine ⟨?_, ?_, ?_⟩ <;> simp [postWaitGo, nRestore, nClose, isRestoreE, isCloseE]
  | succ n ihn =>
    intro i
    simp only [postWaitGo]
    cases hca : childAt child grace i with
    | reaped =>
      exact ⟨by simp [nRestore], by simp [nClose], fun _ => childAt_reaped _ _ _ hca⟩
    | exited t =>
      exact ⟨by simp [nRestore, isRestoreE], by simp [nClose, isCloseE], by simp⟩
    | running => exact ihn (i + 1)

lemma postWait_facts (child : Child) (grace : Option (Nat × ChildStatus)) :
    nRestore (postWait child grace).2.1 = 0 ∧ nClose (postWait child grace).2.1 = 0 ∧
      ((postWait child grace).2.2 = true → child = Child.reaped) :=
  postWaitGo_facts child grace 30 0

/-! ## C1: terminal restoration and descriptor close on every exit path -/

/-- A script whose single PTY chunk triggers a rate-limit match; the child
(SIGTERMed by the supervisor) exits at the first grace poll. -/
def rateScript : RunScript :=
  ⟨[⟨false, false, some (PtyEv.data ["rate limit exceeded"]), none⟩],
    some (0, ChildStatus.exitCode 0)⟩

/-- A script in which the PTY reaches EOF with the child already exited with
status 0: the normal-exit path of the bridging loop. -/
def eofScript : RunScript :=
  ⟨[⟨false, false, some PtyEv.closed, some (ChildStatus.exitCode 0)⟩], none⟩

/-- C1 (amended): on every execution of `run_claude_interactive` with an
existing config dir whose bridging loop ends (normal child exit, EOF/OS
error on the PTY, rate-limit detection, forced termination after timeout, or
`KeyboardInterrupt`), the PTY descriptor is closed exactly once and the
terminal mode is restored before the function returns or the exception
propagates — but restoration runs exactly TWICE on the rate-limit path (once
at detection, switch.py:219, once in the `finally`, switch.py:243) and
exactly once on every other path. -/
theorem run_terminal_cleanup (a : Account) (args patterns : List String)
    (resumeId : Option String) (script : RunScript)
    (h1 : a.configDirExists = true)
    (h2 : (runClaude a args patterns resumeId script).1 ≠ RunRes.nonterm) :
    nClose (runClaude a args patterns resumeId script).2 = 1 ∧
    nRestore (runClaude a args patterns resumeId script).2 =
      (if isRateRes (runClaude a args patterns resumeId script).1 then 2 else 1) := by
  have F := bridgeLoop_facts patterns script.iters ⟨[], false, none⟩ Child.running rfl
    (fun s hs => by simp at hs) (fun l hl => by simp at hl) (by simp)
  simp only [runClaude, h1, if_true] at h2 ⊢
  cases hex : (bridgeLoop patterns script.iters ⟨[], false, none⟩ Child.running).ex with
  | intr =>
    have hrl : (bridgeLoop patterns script.iters ⟨[], false, none⟩ Child.running).st.rateLimit
        = false := by
      cases hb : (bridgeLoop patterns script.iters ⟨[], false, none⟩ Child.running).st.rateLimit
      · rfl
      · have := F.rate_brk hb
        rw [hex] at this
        cases this
    have hres := F.restore_count
    have hcl := F.close_count
    rw [hrl] at hres
    simp only [hex]
    constructor
    · simp only [nClose] at hcl ⊢
      simp [List.countP_append, List.countP_cons, isCloseE, hcl]
    · simp only [nRestore] at hres ⊢
      simp [isRateRes, List.countP_append, List.countP_cons, isRestoreE, hres]
  | cpe =>
    have hrl : (bridgeLoop patterns script.iters ⟨[], false, none⟩ Child.running).st.rateLimit
        = false := by
      cases hb : (bridgeLoop patterns script.iters ⟨[], false, none⟩ Child.running).st.rateLimit
      · rfl
      · have := F.rate_brk hb
        rw [hex] at this
        cases this
    have hres := F.restore_count
    have hcl := F.close_count
    rw [hrl] at hres
    simp only [hex]
    constructor
    · simp only [nClose] at hcl ⊢
      simp [List.countP_append, List.countP_cons, isCloseE, hcl]
    · simp only [nRestore] at hres ⊢
      simp [isRateRes, List.countP_append, List.countP_cons, isRestoreE, hres]
  | ranOut => simp [hex] at h2
  | brk =>
    obtain ⟨hpwr, hpwc, hpwraise⟩ := postWait_facts
      (bridgeLoop patterns script.iters ⟨[], false, none⟩ Child.running).child script.graceExit
    have hres := F.restore_count
    have hcl := F.close_count
    simp only [hex]
    cases hpw : (postWait
        (bridgeLoop patterns script.iters ⟨[], false, none⟩ Child.running).child
        script.graceExit).2.2 with
    | true =>
      have hreap := hpwraise hpw
      have hrl := F.reaped_rate hreap
      rw [hrl] at hres
      simp only [hpw, if_true]
      constructor
      · simp only [nClose] at hcl hpwc ⊢
        simp [List.countP_append, List.countP_cons, isCloseE, hcl, hpwc]
      · simp only [nRestore] at hres hpwr ⊢
        simp [isRateRes, List.countP_append, List.countP_cons, isRestoreE, hres, hpwr]
    | false =>
      simp only [hpw, Bool.false_eq_true, if_false]
      cases hrl : (bridgeLoop patterns script.iters ⟨[], false, none⟩ Child.running).st.rateLimit
        with
      | true =>
        rw [hrl] at hres
        simp only [hrl, if_true]
        constructor
        · simp only [nClose] at hcl hpwc ⊢
          simp [List.countP_append, List.countP_cons, isCloseE, hcl, hpwc]
        · simp only [nRestore] at hres hpwr ⊢
          simp [isRateRes, List.countP_append, List.countP_cons, isRestoreE, hres, hpwr]
      | false =>
        rw [hrl] at hres
        simp only [hrl, Bool.false_eq_true, if_false]
        constructor
        · simp only [nClose] at hcl hpwc ⊢
          simp [List.countP_append, List.countP_cons, isCloseE, hcl, hpwc]
        · simp only [nRestore] at hres hpwr ⊢
          have hnot : ¬((((postWait
              (bridgeLoop patterns script.iters ⟨[], false, none⟩ Child.running).child
              script.graceExit).1 : Nat) : Int) = -1) := by omega
          simp [isRateRes, List.countP_append, List.countP_cons, isRestoreE, hres, hpwr, hnot]

/-- C1 counterexample: on the concrete rate-limit exit path the terminal
restoration executes twice, not exactly once as the claim states. -/
theorem run_restore_twice_on_rate_limit :
    isRateRes (runClaude ⟨"acct", true⟩ [] ["rate limit"] none rateScript).1 = true ∧
    nRestore (runClaude ⟨"acct", true⟩ [] ["rate limit"] none rateScript).2 ≠ 1 := by
  decide

/-- Witness for `run_terminal_cleanup` at the normal-exit script. -/
theorem run_terminal_cleanup_witness :
    nClose (runClaude ⟨"acct", true⟩ [] ["rate limit"] none eofScript).2 = 1 ∧
    nRestore (runClaude ⟨"acct", true⟩ [] ["rate limit"] none eofScript).2 =
      (if isRateRes (runClaude ⟨"acct", true⟩ [] ["rate limit"] none eofScript).1 then 2
       else 1) :=
  run_terminal_cleanup ⟨"acct", true⟩ [] ["rate limit"] none eofScript (by decide) (by decide)

/-! ## C5: capture window and whole-stream rate scanning -/

/-- A script producing a session id on the first output line, then EOF; the
child exits at the first grace poll. -/
def uuidScript : RunScript :=
  ⟨[⟨false, false, some (PtyEv.data ["0123abcd-0123-abcd-0123-0123456789ab"]), none⟩,
    ⟨false, false, some PtyEv.closed, none⟩],
    some (0, ChildStatus.exitCode 0)⟩

/-- C5: in every completed run `(code, lines, captured)`, a captured session
id comes from a transcript line whose 0-based index is below 50 — an
identifier first appearing beyond the early window is never captured (the
source in fact stops scanning at index 48, a subset of the claimed window) —
while rate-limit scanning has no such window: when no rate limit was
reported, every transcript line of the entire run, at any position, was
scanned and found not to match. -/
theorem session_window_and_full_scan (a : Account) (args patterns : List String)
    (resumeId : Option String) (script : RunScript) (code : Int)
    (lines : List String) (cap : Option String)
    (h : (runClaude a args patterns resumeId script).1 = RunRes.ret code lines cap) :
    (∀ s, cap = some s → ∃ i, ∃ hi : i < lines.length, i < 50 ∧
        extract_session_id (lines.get ⟨i, hi⟩) = some s) ∧
    (code ≠ -1 → ∀ line ∈ lines, detect_rate_limit line patterns = false) := by
  by_cases h1 : a.configDirExists
  · have F := bridgeLoop_facts patterns script.iters ⟨[], false, none⟩ Child.running rfl
      (fun s hs => by simp at hs) (fun l hl => by simp at hl) (by simp)
    simp only [runClaude, h1, if_true] at h
    cases hex : (bridgeLoop patterns script.iters ⟨[], false, none⟩ Child.running).ex with
    | intr => rw [hex] at h; cases h
    | cpe => rw [hex] at h; cases h
    | ranOut => rw [hex] at h; cases h
    | brk =>
      rw [hex] at h
      simp only at h
      cases hpw : (postWait
          (bridgeLoop patterns script.iters ⟨[], false, none⟩ Child.running).child
          script.graceExit).2.2 with
      | true => rw [hpw] at h; simp at h
      | false =>
        rw [hpw] at h
        simp only [Bool.false_eq_true, if_false] at h
        cases hrl : (bridgeLoop patterns script.iters ⟨[], false, none⟩
            Child.running).st.rateLimit with
        | true =>
          rw [hrl] at h
          simp only [if_true, RunRes.ret.injEq] at h
          obtain ⟨hcode, hlines, hcap⟩ := h
          subst hlines hcap
          constructor
          · exact F.cap_inv
          · intro hne
            exact absurd hcode.symm hne
        | false =>
          rw [hrl] at h
          simp only [Bool.false_eq_true, if_false, RunRes.ret.injEq] at h
          obtain ⟨hcode, hlines, hcap⟩ := h
          subst hlines hcap
          exact ⟨F.cap_inv, fun _ => F.no_match hrl⟩
  · simp only [runClaude, h1, Bool.false_eq_true, if_false, RunRes.ret.injEq] at h
    obtain ⟨hcode, hlines, hcap⟩ := h
    subst hlines hcap
    constructor
    · intro s hs
      cases hs
    · intro _ line hline
      cases hline

/-- Witness for `session_window_and_full_scan`: a run that captures an id
from line 0 and reports no rate limit. -/
theorem session_window_and_full_scan_witness :
    (∀ s, (some "0123abcd-0123-abcd-0123-0123456789ab" : Option String) = some s →
      ∃ i, ∃ hi : i < (["0123abcd-0123-abcd-0123-0123456789ab"] : List String).length,
        i < 50 ∧
        extract_session_id ((["0123abcd-0123-abcd-0123-0123456789ab"] :
          List String).get ⟨i, hi⟩) = some s) ∧
    ((0 : Int) ≠ -1 → ∀ line ∈ (["0123abcd-0123-abcd-0123-0123456789ab"] : List String),
      detect_rate_limit line ["rate limit"] = false) :=
  session_window_and_full_scan ⟨"acct", true⟩ [] ["rate limit"] none uuidScript 0 _ _
    (by decide)

/-! ## C6: rate-limit detection semantics -/

/-- C6 (amended): `detect_rate_limit` is true iff at least one configured
pattern, applied *verbatim*, matches the lower-cased line (logical OR,
substring semantics, regardless of surrounding text).  Matching is therefore
case-insensitive only with respect to the line's casing, not the pattern's:
the patterns themselves are not lower-cased by the code. -/
theorem detect_rate_limit_or_over_lowered_line (line : String) (patterns : List String) :
    detect_rate_limit line patterns = true ↔
      ∃ p ∈ patterns, strContainsSub (strLower line) p = true := by
  simp [detect_rate_limit, List.any_eq_true]

/-- C6 counterexample: the pattern `"RATE"` matches the line
`"my RATE limit"` case-insensitively (both sides lowered), yet
`detect_rate_limit` returns false, because the code lower-cases only the
line. -/
theorem detect_rate_limit_not_case_insensitive :
    strContainsSub (strLower "my RATE limit") (strLower "RATE") = true ∧
    detect_rate_limit "my RATE limit" ["RATE"] = false := by
  decide

/-! ## C7: session-store round trip -/

/-- C7 (amended): each save is a full-file overwrite, and saving `s` then
loading returns `s` *stripped of surrounding whitespace* (absent when `s`
strips to empty) — exactly `s` only when `s` carries no surrounding
whitespace; the load deletes the file, so a second load with no intervening
save returns absent and leaves the state unchanged. -/
theorem session_store_roundtrip (s : String) (f : FileState) :
    (save_session_id s f).session = some s ∧
    (load_session_id (save_session_id s f)).1 =
      (if strStrip s = "" then none else some (strStrip s)) ∧
    (load_session_id (load_session_id (save_session_id s f)).2).1 = none ∧
    (load_session_id (load_session_id (save_session_id s f)).2).2 =
      (load_session_id (save_session_id s f)).2 := by
  refine ⟨rfl, rfl, ?_, ?_⟩ <;> simp [load_session_id, save_session_id]

/-- C7 counterexample: a value saved with trailing whitespace is not
returned exactly — the load strips it. -/
theorem session_store_not_exact :
    (load_session_id (save_session_id "abc " ⟨none, none⟩)).1 ≠ some "abc " := by
  decide

/-! ## Controller-level invariants -/

/-- Indices of `run_claude_interactive` invocations in a controller trace. -/
def invokedIdxs (effs : List MEff) : List Nat :=
  effs.filterMap fun e => match e with
    | MEff.invoke i _ => some i
    | _ => none

/-- The last session id saved in a trace, defaulting to the initial file
content when no save occurs. -/
def lastSaveFrom (init : Option String) (effs : List MEff) : Option String :=
  effs.foldl (fun acc e => match e with
    | MEff.saveSession s => some s
    | _ => acc) init

lemma invokedIdxs_cons_invoke (i : Nat) (r : Option String) (l : List MEff) :
    invokedIdxs (MEff.invoke i r :: l) = i :: invokedIdxs l := by
  simp [invokedIdxs]

lemma invokedIdxs_append (l1 l2 : List MEff) :
    invokedIdxs (l1 ++ l2) = invokedIdxs l1 ++ invokedIdxs l2 := by
  simp [invokedIdxs]

lemma load_session_id_snd_session (f : FileState) : (load_session_id f).2.session = none := by
  cases hf : f.session <;> simp [load_session_id, hf]

lemma load_session_id_snd_context (f : FileState) : (load_session_id f).2.context = f.context := by
  cases hf : f.session <;> simp [load_session_id, hf]

/-- Invariants of the rotation loop, relative to its entry index, fuel and
file state. -/
structure MainFacts (idx fuel : Nat) (file : FileState)
    (out : MainRes × FileState × List MEff) : Prop where
  invoked : ∃ k, invokedIdxs out.2.2 = List.range' idx k ∧ k ≤ fuel
  session_eq : out.2.1.session = lastSaveFrom file.session out.2.2
  context_eq : out.2.1.context = file.context
  no_ctx : ∀ e ∈ out.2.2, (∀ d, e ≠ MEff.saveContext d) ∧ e ≠ MEff.loadContext

lemma mainLoop_facts (cfg : Config) (args : List String) (ms : MainScript) :
    ∀ (fuel idx : Nat) (curSid : Option String) (file : FileState),
      MainFacts idx fuel file (mainLoop cfg args ms fuel idx curSid file) := by
  intro fuel
  induction fuel with
  | zero =>
    intro idx curSid file
    exact { invoked := ⟨0, by simp [mainLoop, invokedIdxs], Nat.le_refl 0⟩
            session_eq := by simp [mainLoop, lastSaveFrom]
            context_eq := by simp [mainLoop]
            no_ctx := by simp [mainLoop] }
  | succ fuel ih =>
    intro idx curSid file
    simp only [mainLoop]
    split
    case isFalse =>
      exact { invoked := ⟨0, by simp [invokedIdxs], Nat.zero_le _⟩
              session_eq := by simp [lastSaveFrom]
              context_eq := rfl
              no_ctx := by simp }
    case isTrue hidx =>
      cases hres : (runClaude (cfg.accounts.get ⟨idx, hidx⟩) args cfg.patterns
          (if 0 < idx ∧ curSid.isSome then curSid else none)
          (ms.runs.getD idx defaultScript)).1 with
      | intr =>
        exact { invoked := ⟨1, by simp [invokedIdxs], by omega⟩
                session_eq := by simp [lastSaveFrom]
                context_eq := rfl
                no_ctx := by simp }
      | cpe =>
        exact { invoked := ⟨1, by simp [invokedIdxs], by omega⟩
                session_eq := by simp [lastSaveFrom]
                context_eq := rfl
                no_ctx := by simp }
      | nonterm =>
        exact { invoked := ⟨1, by simp [invokedIdxs], by omega⟩
                session_eq := by simp [lastSaveFrom]
                context_eq := rfl
                no_ctx := by simp }
      | ret code lines captured =>
        by_cases hcode : code = -1
        · simp only [hcode, if_true]
          have step :
              ∀ (sid2 : Option String) (file2 : FileState) (seffs : List MEff),
                (∀ e ∈ seffs, (∀ d, e ≠ MEff.saveContext d) ∧ e ≠ MEff.loadContext) →
                invokedIdxs seffs = [] →
                file2.session = lastSaveFrom file.session seffs →
                file2.context = file.context →
                MainFacts idx (fuel + 1) file
                  (if idx + 1 < cfg.accounts.length then
                    if ms.aborts.getD idx false then
                      (MainRes.exit 1, file2,
                        MEff.invoke idx
                          (if 0 < idx ∧ curSid.isSome then curSid else none) :: seffs)
                    else
                      ((mainLoop cfg args ms fuel (idx + 1) sid2 file2).1,
                        (mainLoop cfg args ms fuel (idx + 1) sid2 file2).2.1,
                        MEff.invoke idx
                          (if 0 < idx ∧ curSid.isSome then curSid else none) ::
                          (seffs ++ (mainLoop cfg args ms fuel (idx + 1) sid2 file2).2.2))
                  else
                    (MainRes.exit 1, file2,
                      MEff.invoke idx
                        (if 0 < idx ∧ curSid.isSome then curSid else none) :: seffs)) := by
            intro sid2 file2 seffs hno hninv hsess hctx
            by_cases hnext : idx + 1 < cfg.accounts.length
            · simp only [hnext, if_true]
              by_cases habort : ms.aborts.getD idx false
              · simp only [habort, if_true]
                refine { invoked := ⟨1, ?_, by omega⟩
                         session_eq := ?_
                         context_eq := hctx
                         no_ctx := ?_ }
                · rw [invokedIdxs_cons_invoke, hninv]
                  simp
                · simp only [lastSaveFrom, List.foldl_cons] at hsess ⊢
                  exact hsess
                · intro e he
                  rcases List.mem_cons.1 he with rfl | he
                  · simp
                  · exact hno e he
              · simp only [habort, Bool.false_eq_true, if_false]
                have F := ih (idx + 1) sid2 file2
                obtain ⟨k, hk, hkle⟩ := F.invoked
                refine { invoked := ⟨k + 1, ?_, by omega⟩
                         session_eq := ?_
                         context_eq := by rw [F.context_eq, hctx]
                         no_ctx := ?_ }
                · rw [invokedIdxs_cons_invoke, invokedIdxs_append, hninv, hk,
                    List.range'_succ]
                  simp
                · have hs := F.session_eq
                  simp only [lastSaveFrom, List.foldl_cons, List.foldl_append] at hsess hs ⊢
                  rw [hs, hsess]
                · intro e he
                  rcases List.mem_cons.1 he with rfl | he
                  · simp
                  · rcases List.mem_append.1 he with he | he
                    · exact hno e he
                    · exact F.no_ctx e he
            · simp only [hnext, if_false]
              refine { invoked := ⟨1, ?_, by omega⟩
                       session_eq := ?_
                       context_eq := hctx
                       no_ctx := ?_ }
              · rw [invokedIdxs_cons_invoke, hninv]
                simp
              · simp only [lastSaveFrom, List.foldl_cons] at hsess ⊢
                exact hsess
              · intro e he
                rcases List.mem_cons.1 he with rfl | he
                · simp
                · exact hno e he
          cases captured with
          | some s =>
            exact step (some s) (save_session_id s file) [MEff.saveSession s]
              (by simp) (by simp [invokedIdxs]) (by simp [lastSaveFrom, save_session_id])
              (by simp [save_session_id])
          | none =>
            cases curSid with
            | some sid =>
              exact step (some sid) (save_session_id sid file) [MEff.saveSession sid]
                (by simp) (by simp [invokedIdxs]) (by simp [lastSaveFrom, save_session_id])
                (by simp [save_session_id])
            | none =>
              exact step none file [] (by simp) (by simp [invokedIdxs])
                (by simp [lastSaveFrom]) rfl
        · simp only [hcode, if_false]
          exact { invoked := ⟨1, by simp [invokedIdxs], by omega⟩
                  session_eq := by simp [lastSaveFrom]
                  context_eq := rfl
                  no_ctx := by simp }

lemma invokedIdxs_cons_loadSession (l : List MEff) :
    invokedIdxs (MEff.loadSession :: l) = invokedIdxs l := by
  simp [invokedIdxs]

lemma lastSaveFrom_cons_loadSession (init : Option String) (l : List MEff) :
    lastSaveFrom init (MEff.loadSession :: l) = lastSaveFrom init l := by
  simp [lastSaveFrom]

/-- The outcome component of `run_claude_interactive` does not depend on the
resume argument (which only changes the spawned command line). -/
lemma runClaude_fst_resume_indep (a : Account) (args patterns : List String)
    (r : Option String) (script : RunScript) :
    (runClaude a args patterns r script).1 = (runClaude a args patterns none script).1 := by
  by_cases h : a.configDirExists
  · simp only [runClaude, h, if_true]
    cases hex : (bridgeLoop patterns script.iters ⟨[], false, none⟩ Child.running).ex <;>
        simp only [hex] <;> try rfl
    split <;> try rfl
    split <;> rfl
  · simp only [runClaude, h, Bool.false_eq_true, if_false]

/-- If every remaining account's scripted run is rate-limited and the user
never aborts a switch pause, the rotation loop ends with exit code 1. -/
lemma mainLoop_exhaust (cfg : Config) (args : List String) (ms : MainScript)
    (hab : ∀ i, i < cfg.accounts.length → ms.aborts.getD i false = false)
    (hrl : ∀ i, i < cfg.accounts.length →
      isRateRes (runClaude (cfg.accounts.getD i ⟨"", false⟩) args cfg.patterns none
        (ms.runs.getD i defaultScript)).1 = true) :
    ∀ (fuel idx : Nat) (curSid : Option String) (file : FileState),
      idx + fuel = cfg.accounts.length →
      (mainLoop cfg args ms fuel idx curSid file).1 = MainRes.exit 1 := by
  intro fuel
  induction fuel with
  | zero => intro idx curSid file _; rfl
  | succ fuel ih =>
    intro idx curSid file hlen
    have hidx : idx < cfg.accounts.length := by omega
    simp only [mainLoop]
    rw [dif_pos hidx]
    have hget : cfg.accounts.getD idx ⟨"", false⟩ = cfg.accounts.get ⟨idx, hidx⟩ :=
      List.getD_eq_get cfg.accounts ⟨"", false⟩ hidx
    have hR := hrl idx hidx
    rw [hget] at hR
    rw [runClaude_fst_resume_indep (cfg.accounts.get ⟨idx, hidx⟩) args cfg.patterns
      (if 0 < idx ∧ curSid.isSome then curSid else none) (ms.runs.getD idx defaultScript)]
    cases hres : (runClaude (cfg.accounts.get ⟨idx, hidx⟩) args cfg.patterns none
        (ms.runs.getD idx defaultScript)).1 with
    | intr => rw [hres] at hR; simp [isRateRes] at hR
    | cpe => rw [hres] at hR; simp [isRateRes] at hR
    | nonterm => rw [hres] at hR; simp [isRateRes] at hR
    | ret code lines captured =>
      rw [hres] at hR
      simp only [isRateRes, decide_eq_true_eq] at hR
      subst hR
      by_cases hnext : idx + 1 < cfg.accounts.length
      · have habx := hab idx hidx
        simp only [hnext, if_true, habx, Bool.false_eq_true, if_false]
        exact ih (idx + 1) _ _ (by omega)
      · simp [hnext]

/-! ## C4: strict rotation order -/

/-- C4: with a non-empty account list, the sequence of account indices the
rotation loop invokes is exactly `0, 1, …, k-1` for some
`k ≤ accountCount`: indices increase by exactly one per rate-limited
attempt, no account is ever revisited, and `run_claude_interactive` is
invoked at most `accountCount` times. -/
theorem rotation_strict_order (cfg : Config) (args : List String) (ms : MainScript)
    (f0 : FileState) (hne : cfg.accounts ≠ []) :
    ∃ k, invokedIdxs (mainRun cfg args ms f0).2.2 = List.range k ∧
      k ≤ cfg.accounts.length := by
  have hije : cfg.accounts.isEmpty = false := by
    cases hc : cfg.accounts <;> simp_all
  have F := mainLoop_facts cfg args ms cfg.accounts.length 0 (load_session_id f0).1
    (load_session_id f0).2
  obtain ⟨k, hk, hle⟩ := F.invoked
  refine ⟨k, ?_, hle⟩
  simp only [mainRun, hije, Bool.false_eq_true, if_false]
  rw [invokedIdxs_cons_loadSession, hk, List.range_eq_range']

/-- Witness for `rotation_strict_order` on a one-account configuration. -/
theorem rotation_strict_order_witness :
    ∃ k, invokedIdxs (mainRun ⟨[⟨"acct", true⟩], ["rate limit"]⟩ [] ⟨[eofScript], []⟩
        ⟨none, none⟩).2.2 = List.range k ∧
      k ≤ (⟨[⟨"acct", true⟩], ["rate limit"]⟩ : Config).accounts.length :=
  rotation_strict_order _ _ _ _ (by decide)

/-! ## C2: no context snapshot is ever written -/

/-- C2 (code bug): on every execution of `main` — in particular on every
rate-limit switch — the context-snapshot file is left unchanged and no
`save_context`/`load_context` operation ever appears in the trace.  `main`
never calls those functions, so no `ContextSnapshot` is written before the
next account is launched and none is consumed by the next run, contrary to
the claim and to the module docstring's promise of preserving conversation
context. -/
theorem no_context_snapshot_ever (cfg : Config) (args : List String) (ms : MainScript)
    (f0 : FileState) :
    (mainRun cfg args ms f0).2.1.context = f0.context ∧
    ∀ e ∈ (mainRun cfg args ms f0).2.2,
      (∀ d, e ≠ MEff.saveContext d) ∧ e ≠ MEff.loadContext := by
  by_cases he : cfg.accounts.isEmpty
  · simp only [mainRun, he, if_true]
    exact ⟨by simp, by simp⟩
  · simp only [mainRun, he, Bool.false_eq_true, if_false]
    have F := mainLoop_facts cfg args ms cfg.accounts.length 0 (load_session_id f0).1
      (load_session_id f0).2
    constructor
    · rw [F.context_eq, load_session_id_snd_context]
    · intro e hmem
      rcases List.mem_cons.1 hmem with rfl | hmem
      · simp
      · exact F.no_ctx e hmem

/-! ## C8: all accounts exhausted -/

/-- C8: if every configured account's run ends in rate-limit detection (and
the user never aborts a switch pause), `main` returns the fixed non-zero
"exhausted" exit status 1, and the session marker file afterwards holds
exactly the last session id persisted by a save — saved before the final
exhaustion report and never consumed, remaining on disk for a future manual
run. -/
theorem all_accounts_exhausted (cfg : Config) (args : List String) (ms : MainScript)
    (f0 : FileState) (hne : cfg.accounts ≠ [])
    (hab : ∀ i, i < cfg.accounts.length → ms.aborts.getD i false = false)
    (hrl : ∀ i, i < cfg.accounts.length →
      isRateRes (runClaude (cfg.accounts.getD i ⟨"", false⟩) args cfg.patterns none
        (ms.runs.getD i defaultScript)).1 = true) :
    (mainRun cfg args ms f0).1 = MainRes.exit 1 ∧
    (mainRun cfg args ms f0).2.1.session =
      lastSaveFrom none (mainRun cfg args ms f0).2.2 := by
  have hije : cfg.accounts.isEmpty = false := by
    cases hc : cfg.accounts <;> simp_all
  have F := mainLoop_facts cfg args ms cfg.accounts.length 0 (load_session_id f0).1
    (load_session_id f0).2
  have hE := mainLoop_exhaust cfg args ms hab hrl cfg.accounts.length 0
    (load_session_id f0).1 (load_session_id f0).2 (by omega)
  constructor
  · simp only [mainRun, hije, Bool.false_eq_true, if_false]
    exact hE
  · simp only [mainRun, hije, Bool.false_eq_true, if_false]
    rw [lastSaveFrom_cons_loadSession]
    have hs := F.session_eq
    rw [load_session_id_snd_session] at hs
    exact hs

/-- Witness for `all_accounts_exhausted`: a single account whose run is
rate-limited. -/
theorem all_accounts_exhausted_witness :
    (mainRun ⟨[⟨"acct", true⟩], ["rate limit"]⟩ [] ⟨[rateScript], []⟩ ⟨none, none⟩).1 =
      MainRes.exit 1 ∧
    (mainRun ⟨[⟨"acct", true⟩], ["rate limit"]⟩ [] ⟨[rateScript], []⟩ ⟨none, none⟩).2.1.session =
      lastSaveFrom none
        (mainRun ⟨[⟨"acct", true⟩], ["rate limit"]⟩ [] ⟨[rateScript], []⟩ ⟨none, none⟩).2.2 :=
  all_accounts_exhausted _ _ _ _ (by decide) (by decide) (by decide)

/-! ## C3: exit-code propagation and the double-reap race -/

/-- A script in which the child's exit (status 0) is observed first by the
in-loop liveness poll (`waitpid(WNOHANG)` at switch.py:234): no PTY
readiness in the iteration, child exited before the poll. -/
def waitRaceScript : RunScript :=
  ⟨[⟨false, false, none, some (ChildStatus.exitCode 0)⟩], none⟩

/-- C3 (code bug): when the child exits normally with status 0 and no
rate-limit match occurred, the result depends on which check observes the
exit.  If the in-loop liveness poll sees it first, the child is reaped there
and the post-loop wait (switch.py:254) calls `waitpid` again on the reaped
pid, raising `ChildProcessError`, which nothing catches: the run does not
return `Exited(0)` and the whole process dies with a traceback instead of
exit status 0.  On the EOF-observed path the same child exit yields
`Exited(0)` as the claim states. -/
theorem child_exit_waitpid_race :
    (runClaude ⟨"acct", true⟩ [] ["rate limit"] none waitRaceScript).1 = RunRes.cpe ∧
    supervisor ⟨[⟨"acct", true⟩], ["rate limit"]⟩ [] ⟨[waitRaceScript], []⟩ ⟨none, none⟩ =
      SupOutcome.uncaught ∧
    (runClaude ⟨"acct", true⟩ [] ["rate limit"] none eofScript).1 = RunRes.ret 0 [] none := by
  decide

/-! ## C9: missing config directory -/

/-- C9: if the account's config directory does not exist,
`run_claude_interactive` returns the `ConfigMissing` outcome `(1, [], None)`
with an empty effect trace — no fork, no terminal-mode change, no descriptor
touched — and the controller treats that outcome as terminal: the rotation
loop returns exit code 1 from that account with no further invocations,
rather than skipping to the next account. -/
theorem config_missing_terminal (a : Account) (args patterns : List String)
    (resumeId : Option String) (script : RunScript)
    (h : a.configDirExists = false) :
    runClaude a args patterns resumeId script = (RunRes.ret 1 [] none, []) ∧
    (∀ (cfg : Config) (args2 : List String) (ms : MainScript) (fuel idx : Nat)
        (curSid : Option String) (file : FileState)
        (hidx : idx < cfg.accounts.length),
      (cfg.accounts.get ⟨idx, hidx⟩).configDirExists = false →
      mainLoop cfg args2 ms (fuel + 1) idx curSid file =
        (MainRes.exit 1, file,
          [MEff.invoke idx (if 0 < idx ∧ curSid.isSome then curSid else none)])) := by
  constructor
  · simp [runClaude, h]
  · intro cfg args2 ms fuel idx curSid file hidx hconfig
    simp only [List.get_eq_getElem] at hconfig
    simp only [mainLoop]
    rw [dif_pos hidx]
    simp [runClaude, hconfig]

/-- Witness for `config_missing_terminal` on a concrete mis-provisioned
account. -/
theorem config_missing_terminal_witness :
    runClaude ⟨"missing", false⟩ [] ["rate limit"] none defaultScript =
      (RunRes.ret 1 [] none, []) ∧
    mainLoop ⟨[⟨"missing", false⟩], ["rate limit"]⟩ [] ⟨[defaultScript], []⟩ 1 0 none
        ⟨none, none⟩ = (MainRes.exit 1, ⟨none, none⟩, [MEff.invoke 0 none]) := by
  constructor
  · exact (config_missing_terminal ⟨"missing", false⟩ [] ["rate limit"] none defaultScript
      (by decide)).1
  · have h := (config_missing_terminal ⟨"missing", false⟩ [] ["rate limit"] none
      defaultScript (by decide)).2 ⟨[⟨"missing", false⟩], ["rate limit"]⟩ []
      ⟨[defaultScript], []⟩ 0 0 none ⟨none, none⟩ (by decide) (by decide)
    simpa using h

/-! ## C10: anonymous rate limit means a fresh next run -/

lemma mainLoop_head_invoke (cfg : Config) (args : List String) (ms : MainScript)
    (fuel idx : Nat) (curSid : Option String) (file : FileState)
    (hidx : idx < cfg.accounts.length) :
    ∃ tail, (mainLoop cfg args ms (fuel + 1) idx curSid file).2.2 =
      MEff.invoke idx (if 0 < idx ∧ curSid.isSome then curSid else none) :: tail := by
  simp only [mainLoop]
  rw [dif_pos hidx]
  cases hres : (runClaude (cfg.accounts.get ⟨idx, hidx⟩) args cfg.patterns
      (if 0 < idx ∧ curSid.isSome then curSid else none)
      (ms.runs.getD idx defaultScript)).1 with
  | intr => exact ⟨[], rfl⟩
  | cpe => exact ⟨[], rfl⟩
  | nonterm => exact ⟨[], rfl⟩
  | ret code lines captured =>
    by_cases hcode : code = -1
    · subst hcode
      by_cases hnext : idx + 1 < cfg.accounts.length
      · by_cases habort : ms.aborts.getD idx false
        · simp only [List.getD_eq_getElem?_getD] at habort
          exact ⟨_, by simp [hnext, habort]; try rfl⟩
        · simp only [List.getD_eq_getElem?_getD] at habort
          exact ⟨_, by simp [hnext, habort]; try rfl⟩
      · exact ⟨_, by simp [hnext]; try rfl⟩
    · exact ⟨[], by simp [hcode]⟩

lemma mainLoop_anon_rate_step (cfg : Config) (args : List String) (ms : MainScript)
    (fuel : Nat) (file : FileState) (lines : List String)
    (hidx : 0 < cfg.accounts.length)
    (hnext : 0 + 1 < cfg.accounts.length)
    (hab : ms.aborts.getD 0 false = false)
    (hr : (runClaude (cfg.accounts.get ⟨0, hidx⟩) args cfg.patterns none
      (ms.runs.getD 0 defaultScript)).1 = RunRes.ret (-1) lines none) :
    (mainLoop cfg args ms (fuel + 1) 0 none file).2.2 =
      MEff.invoke 0 none :: (mainLoop cfg args ms fuel 1 none file).2.2 := by
  have hab2 := hab
  simp only [List.getD_eq_getElem?_getD] at hab2
  simp only [mainLoop]
  rw [dif_pos hidx]
  rw [show (if 0 < 0 ∧ (none : Option String).isSome then (none : Option String) else none)
      = none from by simp]
  rw [hr]
  simp [hnext, hab2]

/-- C10: if no session id was loaded at startup and the first account's run
is rate-limited without having captured any session id, then no session
marker file write occurs before the switch and the second account is
launched with no resume argument: the trace begins
`loadSession, invoke 0 None, invoke 1 None` with nothing in between. -/
theorem fresh_run_after_anonymous_rate_limit (cfg : Config) (args : List String)
    (ms : MainScript) (f0 : FileState) (lines : List String)
    (h2 : 2 ≤ cfg.accounts.length)
    (hf : f0.session = none)
    (hab : ms.aborts.getD 0 false = false)
    (hr : ∀ h0 : 0 < cfg.accounts.length,
      (runClaude (cfg.accounts.get ⟨0, h0⟩) args cfg.patterns none
        (ms.runs.getD 0 defaultScript)).1 = RunRes.ret (-1) lines none) :
    ∃ rest, (mainRun cfg args ms f0).2.2 =
      MEff.loadSession :: MEff.invoke 0 none :: MEff.invoke 1 none :: rest := by
  have h0 : (0 : Nat) < cfg.accounts.length := by omega
  have hije : cfg.accounts.isEmpty = false := by
    cases hc : cfg.accounts <;> simp_all
  have hload : load_session_id f0 = (none, f0) := by
    simp [load_session_id, hf]
  obtain ⟨k, hk⟩ : ∃ k, cfg.accounts.length = (k + 1) + 1 :=
    ⟨cfg.accounts.length - 2, by omega⟩
  have hnext : 0 + 1 < cfg.accounts.length := by omega
  simp only [mainRun, hije, Bool.false_eq_true, if_false, hload]
  rw [hk]
  rw [mainLoop_anon_rate_step cfg args ms (k + 1) f0 lines h0 hnext hab (hr h0)]
  obtain ⟨tail, htail⟩ := mainLoop_head_invoke cfg args ms k 1 none f0 (by omega)
  rw [htail]
  refine ⟨tail, ?_⟩
  simp

/-- Witness for `fresh_run_after_anonymous_rate_limit`: two accounts, a
rate-limited first run with no session id anywhere. -/
theorem fresh_run_after_anonymous_rate_limit_witness :
    ∃ rest, (mainRun ⟨[⟨"a", true⟩, ⟨"b", true⟩], ["rate limit"]⟩ []
        ⟨[rateScript, eofScript], []⟩ ⟨none, none⟩).2.2 =
      MEff.loadSession :: MEff.invoke 0 none :: MEff.invoke 1 none :: rest :=
  fresh_run_after_anonymous_rate_limit ⟨[⟨"a", true⟩, ⟨"b", true⟩], ["rate limit"]⟩ []
    ⟨[rateScript, eofScript], []⟩ ⟨none, none⟩ ["rate limit exceeded"]
    (by decide) rfl (by decide) (by decide)

end AutoSwitch
